import Mathlib

/-!
Verification of the Assessment Session & Mastery Engine of the deepTutor
exam-preparation application. The definitions below are a shallow embedding
of the frontend session logic (`frontend/app/mock-exam/page.tsx` and
`frontend/app/practice/[subject]/PracticeClient.tsx`) together with
spec-modelled stand-ins for the backend Answer Evaluator and Mastery
Aggregator, whose implementations are not part of the available sources
(only their API client declarations in `lib/api.ts` are).

Layout: all definitions first, then all theorems.
-/

set_option maxHeartbeats 1000000

/-- Association list used to model both a JavaScript `Map` and a plain
object record keyed by strings: `setA` replaces the value at an existing
key in place (keeping its position, as `Map.set` and object spread do) and
appends the binding at the end when the key is absent. -/
def setA {κ : Type} {α : Type} [DecidableEq κ] : List (κ × α) → κ → α → List (κ × α)
  | [], k, v => [(k, v)]
  | p :: rest, k, v => if p.1 = k then (k, v) :: rest else p :: setA rest k v

/-- Lookup in the association list (first matching key, as `Map.get` and
object property access on unique keys). -/
def lookupA {κ : Type} {α : Type} [DecidableEq κ] : List (κ × α) → κ → Option α
  | [], _ => none
  | p :: rest, k => if p.1 = k then some p.2 else lookupA rest k

/-- Modelled from the spec: the string case of the backend Answer
Evaluator's answer specification (the backend implementation is not among
the available sources; the shape mirrors the `Answer` interface of
`lib/api.ts`): canonical value, accepted textual variations, and the
case-sensitivity flag. -/
structure StringSpec where
  value : String
  accept_variations : List String
  case_sensitive : Bool
deriving DecidableEq

/-- ASCII case folding of one character (A..Z mapped to a..z). -/
def lowerChar (c : Char) : Char :=
  if 65 ≤ c.toNat ∧ c.toNat ≤ 90 then Char.ofNat (c.toNat + 32) else c

/-- Case folding of a string, character by character. -/
def lowerStr (s : String) : String :=
  String.mk (s.data.map lowerChar)

/-- Removal of leading and trailing whitespace. -/
def trimStr (s : String) : String :=
  String.mk (((s.data.dropWhile Char.isWhitespace).reverse.dropWhile
    Char.isWhitespace).reverse)

/-- Modelled from the spec: normalisation applied to each compared string —
leading/trailing whitespace is always trimmed, and the comparison is
case-folded unless `case_sensitive` is set. -/
def normalizeAnswer (caseSensitive : Bool) (s : String) : String :=
  let t := trimStr s
  if caseSensitive then t else lowerStr t

/-- Modelled from the spec: the backend Answer Evaluator's string rule —
the submitted string is compared against the canonical value and every
accepted variation, each side normalised by `normalizeAnswer`. -/
def evaluateString (spec : StringSpec) (submitted : String) : Bool :=
  let n := normalizeAnswer spec.case_sensitive submitted
  (n == normalizeAnswer spec.case_sensitive spec.value)
    || spec.accept_variations.any (fun v => n == normalizeAnswer spec.case_sensitive v)

def wspec : StringSpec := ⟨"answer", ["solution"], false⟩

/-- Modelled from the spec: one MasteryRecord of the backend Mastery
Aggregator (shape mirrors `TypeProgress` of `lib/api.ts`): lifetime running
counters together with the derived mastery score. -/
structure MasteryRecord where
  attempted : Nat
  correct : Nat
  mastery : ℚ
deriving DecidableEq

/-- One finalized attempt handed to the Mastery Aggregator, carrying its
subject and question-type tags. -/
structure AttemptIn where
  subject : String
  qtype : String
  is_correct : Bool
deriving DecidableEq

def emptyRecord : MasteryRecord := ⟨0, 0, 0⟩

/-- The per-user mastery store, keyed by (subject, question-type). -/
def getRecord (store : List ((String × String) × MasteryRecord)) (k : String × String) :
    MasteryRecord :=
  (lookupA store k).getD emptyRecord

/-- Modelled from the spec: folding one attempt into the store — increment
the lifetime counters and recompute the mastery score fresh as
correct / attempted. -/
def applyAttempt (store : List ((String × String) × MasteryRecord)) (a : AttemptIn) :
    List ((String × String) × MasteryRecord) :=
  let k := (a.subject, a.qtype)
  let r := getRecord store k
  let attempted := r.attempted + 1
  let correct := r.correct + (if a.is_correct then 1 else 0)
  setA store k ⟨attempted, correct, (correct : ℚ) / (attempted : ℚ)⟩

/-- Modelled from the spec: `record_attempts` applies the whole incoming
batch to the per-user store. -/
def recordAttempts (store : List ((String × String) × MasteryRecord))
    (batch : List AttemptIn) : List ((String × String) × MasteryRecord) :=
  batch.foldl applyAttempt store

/-- Stores reachable from the empty store by a sequence of
`recordAttempts` batches. -/
inductive AggReach : List ((String × String) × MasteryRecord) → Prop where
  | init : AggReach []
  | step (batch : List AttemptIn) {st : List ((String × String) × MasteryRecord)} :
      AggReach st → AggReach (recordAttempts st batch)

/-- Every stored mastery score is derived fresh from the two running
counters. -/
def masteryDerived (store : List ((String × String) × MasteryRecord)) : Prop :=
  ∀ k, (getRecord store k).mastery
    = ((getRecord store k).correct : ℚ) / ((getRecord store k).attempted : ℚ)

def wbatch : List AttemptIn :=
  [⟨"maths", "fractions", true⟩, ⟨"maths", "fractions", false⟩, ⟨"english", "grammar", true⟩]

/-- One practice question as the practice client uses it: its id and the
multi-select flag of its content (`Question` of `lib/api.ts`, restricted to
the fields the session logic reads). -/
structure PQuestion where
  id : String
  multi_select : Bool
deriving DecidableEq

/-- The fields of the backend `AnswerResult` that the practice client
stores (`is_correct` and `score`). -/
structure AnswerResultR where
  is_correct : Bool
  score : ℚ
deriving DecidableEq

/-- One entry of the practice client's `answers` map: the submitted string
plus the grading result. -/
structure StoredAnswer where
  answer : String
  result : AnswerResultR
deriving DecidableEq

/-- The state of `PracticeClient` (PracticeClient.tsx): the `practice`
object (questions, currentIndex, answers, hintsUsed) together with the
separate `selectedAnswers`, `showResult`, `showHint` and `sessionComplete`
pieces of React state that the session logic reads and writes. -/
structure PracticeState where
  questions : List PQuestion
  currentIndex : Nat
  answers : List (String × StoredAnswer)
  hintsUsed : List (String × Nat)
  selectedAnswers : List String
  showResult : Bool
  showHint : Bool
  sessionComplete : Bool
deriving DecidableEq

/-- The freshly loaded state (`loadQuestions` / `handleRestart`): empty
answer and hint maps, first question, nothing selected or shown. -/
def pInit (qs : List PQuestion) : PracticeState :=
  ⟨qs, 0, [], [], [], false, false, false⟩

/-- `handleSelectAnswer` of PracticeClient.tsx: a no-op once the result is
shown or when there is no current question; toggles membership for
multi-select questions, otherwise replaces the selection. -/
def pSelectAnswer (st : PracticeState) (answer : String) : PracticeState :=
  if st.showResult then st else
  match st.questions[st.currentIndex]? with
  | none => st
  | some q =>
    if q.multi_select then
      if st.selectedAnswers.contains answer then
        { st with selectedAnswers := st.selectedAnswers.filter (fun a => a != answer) }
      else
        { st with selectedAnswers := st.selectedAnswers ++ [answer] }
    else
      { st with selectedAnswers := [answer] }

/-- `handleSubmitAnswer` of PracticeClient.tsx: guarded on a non-empty
selection and a current question; the backend `checkAnswer` call is an
oracle argument (`none` models the call throwing, in which case the catch
block leaves the state unchanged); on success the result is shown and the
joined answer is stored in the `answers` map keyed by the question id. -/
def pSubmitAnswer (st : PracticeState) (result : Option AnswerResultR) : PracticeState :=
  if st.selectedAnswers.length = 0 then st else
  match st.questions[st.currentIndex]? with
  | none => st
  | some q =>
    match result with
    | none => st
    | some r =>
      let finalAnswer := String.intercalate ", " st.selectedAnswers
      { st with showResult := true,
                answers := setA st.answers q.id ⟨finalAnswer, r⟩ }

/-- `handleGetHint` of PracticeClient.tsx: the next hint level is one more
than the hints already used for the current question; levels above 3 are
refused before any effect; the backend `getHints` call is an oracle flag
(`false` models the call throwing, leaving the state unchanged). -/
def pGetHint (st : PracticeState) (fetchOk : Bool) : PracticeState :=
  match st.questions[st.currentIndex]? with
  | none => st
  | some q =>
    if (lookupA st.hintsUsed q.id).getD 0 + 1 > 3 then st
    else if fetchOk then
      { st with showHint := true,
                hintsUsed := setA st.hintsUsed q.id ((lookupA st.hintsUsed q.id).getD 0 + 1) }
    else st

/-- `handleNextQuestion` of PracticeClient.tsx: completes the session on
the last question, otherwise advances and clears the per-question
presentation state. -/
def pNextQuestion (st : PracticeState) : PracticeState :=
  if st.questions.length - 1 ≤ st.currentIndex then
    { st with sessionComplete := true }
  else
    { st with currentIndex := st.currentIndex + 1, selectedAnswers := [],
              showResult := false, showHint := false }

/-- Result summary computed by `getResults` of PracticeClient.tsx:
correct count and accuracy come from the per-attempt correctness booleans
(accuracy is held as a percentage). -/
structure PracticeResults where
  correct : Nat
  total : Nat
  accuracy : ℚ
deriving DecidableEq

/-- `getResults` of PracticeClient.tsx. -/
def getResults (st : PracticeState) : PracticeResults :=
  let answers := st.answers.map (fun p => p.2)
  let correct := (answers.filter (fun a => a.result.is_correct)).length
  ⟨correct, answers.length,
    if answers.length > 0 then ((correct : ℚ) / (answers.length : ℚ)) * 100 else 0⟩

/-- Modelled from the spec: the per-attempt score computed by the backend
evaluator (not among the available sources) — base score 1.0 if correct
else 0.0, minus the per-hint penalty, floored at 0. -/
def attemptScore (correct : Bool) (hintsUsed : Nat) (penalty : ℚ) : ℚ :=
  max 0 ((if correct then 1 else 0) - hintsUsed * penalty)

/-- Modelled from the spec: the session's total score — the sum of the
stored per-attempt scores. -/
def totalScore (st : PracticeState) : ℚ :=
  (st.answers.map (fun p => p.2.result.score)).sum

/-- One user interaction step of the practice client. -/
inductive PStep : PracticeState → PracticeState → Prop where
  | selectStep {st : PracticeState} (answer : String) : PStep st (pSelectAnswer st answer)
  | submitStep {st : PracticeState} (result : Option AnswerResultR) :
      PStep st (pSubmitAnswer st result)
  | hintStep {st : PracticeState} (fetchOk : Bool) : PStep st (pGetHint st fetchOk)
  | nextStep {st : PracticeState} : PStep st (pNextQuestion st)
  | restartStep {st : PracticeState} (qs : List PQuestion) : PStep st (pInit qs)

/-- Practice states reachable from a freshly loaded session. -/
inductive PReach (qs0 : List PQuestion) : PracticeState → Prop where
  | init : PReach qs0 (pInit qs0)
  | step {st st' : PracticeState} : PReach qs0 st → PStep st st' → PReach qs0 st'

/-- The bound maintained on every question's used-hint count. -/
def hintInv (st : PracticeState) : Prop :=
  ∀ q, (lookupA st.hintsUsed q).getD 0 ≤ 3

def pq1 : PQuestion := ⟨"q1", false⟩

def pq2 : PQuestion := ⟨"q2", false⟩

def pq3 : PQuestion := ⟨"q3", false⟩

/-- Counterexample state for C3: question q1 already has a stored attempt
(answer "A", graded correct) while a new selection "B" is pending. -/
def cs3 : PracticeState :=
  ⟨[pq1], 0, [("q1", ⟨"A", ⟨true, 1⟩⟩)], [], ["B"], false, false, false⟩

/-- The spec's hint penalty of the three-question scenario. -/
def scenPenalty : ℚ := 1 / 2

/-- Grading oracle used in the scenario: correctness plus the spec-modelled
hint-penalised score. -/
def scenResult (c : Bool) (hints : Nat) : AnswerResultR :=
  ⟨c, attemptScore c hints scenPenalty⟩

def pScen0 : PracticeState := pInit [pq1, pq2, pq3]

def pScen1 : PracticeState := pSelectAnswer pScen0 "a1"

def pScen2 : PracticeState := pSubmitAnswer pScen1 (some (scenResult true 0))

def pScen3 : PracticeState := pNextQuestion pScen2

def pScen4 : PracticeState := pGetHint pScen3 true

def pScen5 : PracticeState := pGetHint pScen4 true

def pScen6 : PracticeState := pSelectAnswer pScen5 "a2"

def pScen7 : PracticeState := pSubmitAnswer pScen6 (some (scenResult true 2))

def pScen8 : PracticeState := pNextQuestion pScen7

def pScen9 : PracticeState := pGetHint pScen8 true

def pScen10 : PracticeState := pSelectAnswer pScen9 "a3"

def pScen11 : PracticeState := pSubmitAnswer pScen10 (some (scenResult false 1))

def pScen12 : PracticeState := pNextQuestion pScen11

/-- One section of a mock-exam paper (`papers[].sections[]` of the
MockExamSession the backend returns): subject key, question count and time
limit. -/
structure MockSection where
  name : String
  question_count : Nat
  time_seconds : Nat
deriving DecidableEq

/-- One paper of a mock exam. -/
structure MockPaper where
  paper_number : Nat
  sections : List MockSection
deriving DecidableEq

/-- A mock-exam session as the frontend holds it. -/
structure MockExamSession where
  id : String
  papers : List MockPaper
deriving DecidableEq

/-- `ExamPhase` of mock-exam/page.tsx ('intro' | 'section' |
'section_break' | 'paper_break' | 'results'). -/
inductive ExamPhase where
  | intro
  | sectionActive
  | sectionBreak
  | paperBreak
  | results
deriving DecidableEq

/-- Outcome of the fire-and-forget backend `submitAnswer` call. -/
inductive SubmitOutcome where
  | ok
  | failed
deriving DecidableEq

/-- The React state of `MockExamPage` that the exam lifecycle reads and
writes: phase, session, current paper/section/question position, the local
answers record, the surfaced error message and whether results were
loaded. -/
structure ExamState where
  phase : ExamPhase
  session : Option MockExamSession
  currentPaper : Nat
  currentSectionIdx : Nat
  questions : List String
  currentQuestionIdx : Nat
  answers : List (String × String)
  errorMsg : String
  resultsLoaded : Bool
deriving DecidableEq

/-- The initial state of `MockExamPage` (useState initialisers). -/
def examInit : ExamState := ⟨ExamPhase.intro, none, 1, 0, [], 0, [], "", false⟩

/-- The paper numbered n exists in the session and has exactly 4 sections
(the fixed 2-papers-by-4-sections exam structure the backend produces and
the intro screen describes). -/
def paperOK (sess : MockExamSession) (n : Nat) : Bool :=
  match sess.papers.find? (fun p => p.paper_number == n) with
  | some p => p.sections.length == 4
  | none => false

/-- A session with the fixed structure: papers 1 and 2, 4 sections each. -/
def wellFormedSession (sess : MockExamSession) : Bool :=
  paperOK sess 1 && paperOK sess 2

/-- `startExam` of mock-exam/page.tsx (success path): store the session,
reset to Paper 1 Section 0, enter the section phase and load its
questions. -/
def startExamState (s : ExamState) (sess : MockExamSession) (qs : List String) : ExamState :=
  { s with session := some sess, currentPaper := 1, currentSectionIdx := 0,
           phase := ExamPhase.sectionActive, questions := qs, currentQuestionIdx := 0 }

/-- `handleSelectAnswer` of mock-exam/page.tsx: store the selection keyed
by the current question's id, then fire the backend submission whose
rejection is caught by an empty handler — so the outcome argument affects
neither the state nor the (absent) surfaced error. -/
def handleSelectAnswerE (s : ExamState) (answer : String) (o : SubmitOutcome) :
    ExamState × Option String :=
  match s.questions[s.currentQuestionIdx]? with
  | none => (s, none)
  | some qid =>
    match s.session with
    | none => ({ s with answers := setA s.answers qid answer }, none)
    | some _ => ({ s with answers := setA s.answers qid answer }, none)

/-- `completeExam` of mock-exam/page.tsx: a no-op without a session; on a
successful backend call the results are stored and the results phase
entered, on a failed call only the error message is set. -/
def completeExam (outcome : Bool) (s : ExamState) : ExamState :=
  match s.session with
  | none => s
  | some _ =>
    if outcome then { s with phase := ExamPhase.results, resultsLoaded := true }
    else { s with errorMsg := "Failed to complete exam" }

/-- `finishSection` of mock-exam/page.tsx: advance to a section break while
sections remain in the current paper, to the paper break at the end of
Paper 1, and to `completeExam` at the end of Paper 2. -/
def finishSection (outcome : Bool) (s : ExamState) : ExamState :=
  match s.session with
  | none => s
  | some sess =>
    match sess.papers.find? (fun p => p.paper_number == s.currentPaper) with
    | none => s
    | some paper =>
      if s.currentSectionIdx + 1 < paper.sections.length then
        { s with currentSectionIdx := s.currentSectionIdx + 1,
                 phase := ExamPhase.sectionBreak }
      else if s.currentPaper = 1 then
        { s with phase := ExamPhase.paperBreak }
      else
        completeExam outcome s

/-- `handleTimerExpired` of mock-exam/page.tsx: delegates to
`finishSection`. -/
def handleTimerExpired (outcome : Bool) (s : ExamState) : ExamState :=
  finishSection outcome s

/-- `startNextSection` of mock-exam/page.tsx: a no-op without a session;
otherwise re-enter the section phase and load the next section's
questions. -/
def startNextSection (s : ExamState) (qs : List String) : ExamState :=
  match s.session with
  | none => s
  | some _ =>
    { s with phase := ExamPhase.sectionActive, questions := qs, currentQuestionIdx := 0 }

/-- `startPaper2` of mock-exam/page.tsx: a no-op without a session;
otherwise move to Paper 2 Section 0 and enter the section phase. -/
def startPaper2 (s : ExamState) (qs : List String) : ExamState :=
  match s.session with
  | none => s
  | some _ =>
    { s with currentPaper := 2, currentSectionIdx := 0, phase := ExamPhase.sectionActive,
             questions := qs, currentQuestionIdx := 0 }

/-- The "Take Another Exam" button on the results screen: back to the
intro with session, results and answers cleared. -/
def resetToIntro (s : ExamState) : ExamState :=
  { s with phase := ExamPhase.intro, session := none, resultsLoaded := false, answers := [] }

/-- The user-triggerable events of the mock-exam page. -/
inductive ExamEvent where
  | start (sess : MockExamSession) (qs : List String)
  | fail (msg : String)
  | select (answer : String) (o : SubmitOutcome)
  | gotoQ (i : Nat)
  | finishS (outcome : Bool)
  | timerUp (outcome : Bool)
  | startNextS (qs : List String)
  | startPaperTwo (qs : List String)
  | takeAnother
deriving DecidableEq

/-- The transition relation of the mock-exam page: each event is enabled
exactly in the phase whose screen renders its trigger (failures of the
start/load backend calls only set the error message and can occur in the
intro or section phase, where those calls are made). -/
inductive ExamStep : ExamState → ExamEvent → ExamState → Prop where
  | startE {s : ExamState} (sess : MockExamSession) (qs : List String)
      (hph : s.phase = ExamPhase.intro) (hwf : wellFormedSession sess = true) :
      ExamStep s (ExamEvent.start sess qs) (startExamState s sess qs)
  | failE {s : ExamState} (msg : String)
      (hph : s.phase = ExamPhase.intro ∨ s.phase = ExamPhase.sectionActive) :
      ExamStep s (ExamEvent.fail msg) { s with errorMsg := msg }
  | selectE {s : ExamState} (answer : String) (o : SubmitOutcome)
      (hph : s.phase = ExamPhase.sectionActive) :
      ExamStep s (ExamEvent.select answer o) (handleSelectAnswerE s answer o).1
  | gotoQE {s : ExamState} (i : Nat) (hph : s.phase = ExamPhase.sectionActive) :
      ExamStep s (ExamEvent.gotoQ i) { s with currentQuestionIdx := i }
  | finishSE {s : ExamState} (outcome : Bool) (hph : s.phase = ExamPhase.sectionActive) :
      ExamStep s (ExamEvent.finishS outcome) (finishSection outcome s)
  | timerUpE {s : ExamState} (outcome : Bool) (hph : s.phase = ExamPhase.sectionActive) :
      ExamStep s (ExamEvent.timerUp outcome) (handleTimerExpired outcome s)
  | startNextSE {s : ExamState} (qs : List String) (hph : s.phase = ExamPhase.sectionBreak) :
      ExamStep s (ExamEvent.startNextS qs) (startNextSection s qs)
  | startPaperTwoE {s : ExamState} (qs : List String) (hph : s.phase = ExamPhase.paperBreak) :
      ExamStep s (ExamEvent.startPaperTwo qs) (startPaper2 s qs)
  | takeAnotherE {s : ExamState} (hph : s.phase = ExamPhase.results) :
      ExamStep s ExamEvent.takeAnother (resetToIntro s)

/-- Mock-exam page states reachable from the initial render. -/
inductive ExamReach : ExamState → Prop where
  | init : ExamReach examInit
  | step {s : ExamState} {e : ExamEvent} {s' : ExamState} :
      ExamReach s → ExamStep s e s' → ExamReach s'

/-- A stored, well-formed session. -/
def sessionOK (s : ExamState) : Prop :=
  ∃ sess, s.session = some sess ∧ wellFormedSession sess = true

/-- The reachability invariant of the mock-exam page: inside the exam a
well-formed session is stored, the paper is 1 or 2 and the section index
at most 3. -/
def ExamInv (s : ExamState) : Prop :=
  ((s.phase = ExamPhase.sectionActive ∨ s.phase = ExamPhase.sectionBreak) →
    sessionOK s ∧ (s.currentPaper = 1 ∨ s.currentPaper = 2) ∧ s.currentSectionIdx ≤ 3) ∧
  (s.phase = ExamPhase.paperBreak → sessionOK s)

def sampleSection (n : String) : MockSection := ⟨n, 20, 900⟩

def samplePaper (n : Nat) : MockPaper :=
  ⟨n, [sampleSection "english", sampleSection "maths",
       sampleSection "non_verbal_reasoning", sampleSection "verbal_reasoning"]⟩

def sampleSession : MockExamSession := ⟨"exam1", [samplePaper 1, samplePaper 2]⟩

def wst1 : ExamState := startExamState examInit sampleSession []

def wst2 : ExamState := finishSection true wst1

def wst3 : ExamState := startNextSection wst2 []

def wst4 : ExamState := finishSection true wst3

def wst5 : ExamState := startNextSection wst4 []

def wst6 : ExamState := finishSection true wst5

def wst7 : ExamState := startNextSection wst6 []

def wst8 : ExamState := finishSection true wst7

def wst9 : ExamState := startPaper2 wst8 []

def wst10 : ExamState := finishSection true wst9

def wst11 : ExamState := startNextSection wst10 []

def wst12 : ExamState := finishSection true wst11

def wst13 : ExamState := startNextSection wst12 []

def wst14 : ExamState := finishSection true wst13

def wst15 : ExamState := startNextSection wst14 []

/-- A concrete active-section state used as counterexample input for C8
and as witness input for C10: question e2 already has answer "C" stored. -/
def cse : ExamState :=
  ⟨ExamPhase.sectionActive, some sampleSession, 1, 0, ["e1", "e2"], 0,
   [("e2", "C")], "", false⟩

/-! ## Theorems -/

theorem lookupA_setA_self {κ α : Type} [DecidableEq κ] (m : List (κ × α)) (k : κ) (v : α) :
    lookupA (setA m k v) k = some v := by
  induction m with
  | nil => simp [setA, lookupA]
  | cons p rest ih =>
    by_cases h : p.1 = k
    · simp [setA, lookupA, h]
    · simp [setA, lookupA, h, ih]

theorem lookupA_setA_ne {κ α : Type} [DecidableEq κ] (m : List (κ × α)) (k k' : κ) (v : α)
    (h : k' ≠ k) : lookupA (setA m k v) k' = lookupA m k' := by
  induction m with
  | nil =>
    simp only [setA, lookupA]
    rw [if_neg (fun hh => h hh.symm)]
  | cons p rest ih =>
    by_cases hp : p.1 = k
    · simp only [setA, if_pos hp, lookupA]
      rw [if_neg (fun hh => h hh.symm), if_neg (by rw [hp]; exact fun hh => h hh.symm)]
    · simp only [setA, if_neg hp, lookupA, ih]

theorem getRecord_applyAttempt_attempted (store : List ((String × String) × MasteryRecord))
    (a : AttemptIn) :
    (getRecord (applyAttempt store a) (a.subject, a.qtype)).attempted
      = (getRecord store (a.subject, a.qtype)).attempted + 1 := by
  simp only [applyAttempt, getRecord]
  rw [lookupA_setA_self]
  rfl

theorem getRecord_applyAttempt_correct (store : List ((String × String) × MasteryRecord))
    (a : AttemptIn) :
    (getRecord (applyAttempt store a) (a.subject, a.qtype)).correct
      = (getRecord store (a.subject, a.qtype)).correct + (if a.is_correct then 1 else 0) := by
  simp only [applyAttempt, getRecord]
  rw [lookupA_setA_self]
  rfl

theorem getRecord_applyAttempt_mastery (store : List ((String × String) × MasteryRecord))
    (a : AttemptIn) :
    (getRecord (applyAttempt store a) (a.subject, a.qtype)).mastery
      = ((getRecord (applyAttempt store a) (a.subject, a.qtype)).correct : ℚ)
        / ((getRecord (applyAttempt store a) (a.subject, a.qtype)).attempted : ℚ) := by
  simp only [applyAttempt, getRecord]
  rw [lookupA_setA_self]
  rfl

theorem getRecord_applyAttempt_ne (store : List ((String × String) × MasteryRecord))
    (a : AttemptIn) (k : String × String) (h : k ≠ (a.subject, a.qtype)) :
    getRecord (applyAttempt store a) k = getRecord store k := by
  simp only [applyAttempt, getRecord]
  rw [lookupA_setA_ne _ _ _ _ h]

theorem applyAttempt_derived (store : List ((String × String) × MasteryRecord))
    (a : AttemptIn) (h : masteryDerived store) : masteryDerived (applyAttempt store a) := by
  intro k
  by_cases hk : k = (a.subject, a.qtype)
  · subst hk
    exact getRecord_applyAttempt_mastery store a
  · rw [getRecord_applyAttempt_ne store a k hk]
    exact h k

theorem recordAttempts_derived (batch : List AttemptIn) :
    ∀ store, masteryDerived store → masteryDerived (recordAttempts store batch) := by
  induction batch with
  | nil => intro store h; exact h
  | cons a rest ih =>
    intro store h
    exact ih (applyAttempt store a) (applyAttempt_derived store a h)

theorem aggReach_derived (store : List ((String × String) × MasteryRecord))
    (h : AggReach store) : masteryDerived store := by
  induction h with
  | init => intro k; simp [getRecord, lookupA, emptyRecord]
  | step batch _ ih => exact recordAttempts_derived batch _ ih

theorem recordAttempts_counts (batch : List AttemptIn) :
    ∀ store k,
      (getRecord (recordAttempts store batch) k).attempted
        = (getRecord store k).attempted
          + (batch.filter (fun a => decide ((a.subject, a.qtype) = k))).length ∧
      (getRecord (recordAttempts store batch) k).correct
        = (getRecord store k).correct
          + (batch.filter
              (fun a => decide ((a.subject, a.qtype) = k) && a.is_correct)).length := by
  induction batch with
  | nil => intro store k; simp [recordAttempts]
  | cons a rest ih =>
    intro store k
    obtain ⟨h1, h2⟩ := ih (applyAttempt store a) k
    by_cases hk : (a.subject, a.qtype) = k
    · subst hk
      constructor
      · show (getRecord (recordAttempts (applyAttempt store a) rest) _).attempted = _
        rw [h1, getRecord_applyAttempt_attempted]
        simp [List.filter_cons]
        omega
      · show (getRecord (recordAttempts (applyAttempt store a) rest) _).correct = _
        rw [h2, getRecord_applyAttempt_correct]
        cases hc : a.is_correct
        · simp [List.filter_cons, hc]
        · simp [List.filter_cons, hc]
          omega
    · constructor
      · show (getRecord (recordAttempts (applyAttempt store a) rest) _).attempted = _
        rw [h1, getRecord_applyAttempt_ne store a k (fun hh => hk hh.symm)]
        simp [List.filter_cons, hk]
      · show (getRecord (recordAttempts (applyAttempt store a) rest) _).correct = _
        rw [h2, getRecord_applyAttempt_ne store a k (fun hh => hk hh.symm)]
        simp [List.filter_cons, hk]

/-- C6: after every `record_attempts` update (i.e. in every reachable
store) the stored mastery score of each (subject, question-type) record
equals total correct divided by total attempted, and the two counters are
lifetime running totals: a further batch adds exactly its per-key attempt
and correct counts on top of the previous lifetime values. -/
theorem C6_mastery_running (store : List ((String × String) × MasteryRecord))
    (h : AggReach store) :
    (∀ k, (getRecord store k).mastery
        = ((getRecord store k).correct : ℚ) / ((getRecord store k).attempted : ℚ)) ∧
    (∀ batch k,
      (getRecord (recordAttempts store batch) k).attempted
        = (getRecord store k).attempted
          + (batch.filter (fun a => decide ((a.subject, a.qtype) = k))).length ∧
      (getRecord (recordAttempts store batch) k).correct
        = (getRecord store k).correct
          + (batch.filter
              (fun a => decide ((a.subject, a.qtype) = k) && a.is_correct)).length) :=
  ⟨aggReach_derived store h, fun batch k => recordAttempts_counts batch store k⟩

/-- Witness for C6: one batch applied to the empty store; the
maths/fractions record holds mastery = correct / attempted and lifetime
counters 2 attempted, 1 correct. -/
theorem C6_mastery_running_witness :
    (getRecord (recordAttempts [] wbatch) ("maths", "fractions")).mastery
      = ((getRecord (recordAttempts [] wbatch) ("maths", "fractions")).correct : ℚ)
        / ((getRecord (recordAttempts [] wbatch) ("maths", "fractions")).attempted : ℚ) ∧
    (getRecord (recordAttempts [] wbatch) ("maths", "fractions")).attempted = 2 ∧
    (getRecord (recordAttempts [] wbatch) ("maths", "fractions")).correct = 1 := by
  have h := C6_mastery_running (recordAttempts [] wbatch) (AggReach.step wbatch AggReach.init)
  exact ⟨h.1 ("maths", "fractions"), by decide, by decide⟩

/-- C5: for a case-insensitive string answer specification, the evaluator's
verdict is invariant under case changes of the submitted string (with
leading/trailing whitespace trimmed before comparison). -/
theorem C5_case_insensitive (spec : StringSpec) (s1 s2 : String)
    (hcs : spec.case_sensitive = false)
    (h : lowerStr (trimStr s1) = lowerStr (trimStr s2)) :
    evaluateString spec s1 = evaluateString spec s2 := by
  simp only [evaluateString, normalizeAnswer, hcs, if_false, Bool.false_eq_true]
  rw [h]

/-- Witness for C5 at the spec's example: "ANSWER" and "answer". -/
theorem C5_case_insensitive_witness :
    wspec.case_sensitive = false ∧
    lowerStr (trimStr "ANSWER") = lowerStr (trimStr "answer") ∧
    evaluateString wspec "ANSWER" = evaluateString wspec "answer" :=
  ⟨rfl, by decide, C5_case_insensitive wspec "ANSWER" "answer" rfl (by decide)⟩

theorem pSelectAnswer_hintsUsed (st : PracticeState) (answer : String) :
    (pSelectAnswer st answer).hintsUsed = st.hintsUsed := by
  unfold pSelectAnswer
  repeat' split
  all_goals rfl

theorem pSubmitAnswer_hintsUsed (st : PracticeState) (result : Option AnswerResultR) :
    (pSubmitAnswer st result).hintsUsed = st.hintsUsed := by
  unfold pSubmitAnswer
  repeat' split
  all_goals rfl

theorem pNextQuestion_hintsUsed (st : PracticeState) :
    (pNextQuestion st).hintsUsed = st.hintsUsed := by
  unfold pNextQuestion
  repeat' split
  all_goals rfl

theorem pGetHint_bound (st : PracticeState) (fetchOk : Bool) (h : hintInv st) :
    hintInv (pGetHint st fetchOk) := by
  intro qk
  unfold pGetHint
  split
  · exact h qk
  · next q heq =>
    split
    · exact h qk
    · split
      · next hlvl _ =>
        show (lookupA (setA st.hintsUsed q.id ((lookupA st.hintsUsed q.id).getD 0 + 1)) qk).getD 0 ≤ 3
        by_cases hqk : qk = q.id
        · subst hqk
          rw [lookupA_setA_self]
          simpa using Nat.not_lt.mp hlvl
        · rw [lookupA_setA_ne _ _ _ _ hqk]
          exact h qk
      · exact h qk

theorem pGetHint_noop_at_three (st : PracticeState) (fetchOk : Bool) (q : PQuestion)
    (hq : st.questions[st.currentIndex]? = some q)
    (h3 : (lookupA st.hintsUsed q.id).getD 0 = 3) :
    pGetHint st fetchOk = st := by
  unfold pGetHint
  rw [hq]
  simp [h3]

theorem pStep_hintInv {st st' : PracticeState} (h : hintInv st) (hs : PStep st st') :
    hintInv st' := by
  cases hs with
  | selectStep answer => intro qk; rw [pSelectAnswer_hintsUsed]; exact h qk
  | submitStep result => intro qk; rw [pSubmitAnswer_hintsUsed]; exact h qk
  | hintStep fetchOk => exact pGetHint_bound st fetchOk h
  | nextStep => intro qk; rw [pNextQuestion_hintsUsed]; exact h qk
  | restartStep qs => intro qk; simp [pInit, lookupA]

theorem preach_hintInv (qs0 : List PQuestion) (st : PracticeState) (h : PReach qs0 st) :
    hintInv st := by
  induction h with
  | init => intro qk; simp [pInit, lookupA]
  | step _ hs ih => exact pStep_hintInv ih hs

/-- C9: in every reachable practice state the used-hint count of every
question is at most 3, and requesting a hint for the current question when
3 hints have already been used leaves the state (hence the hints-used map)
unchanged. -/
theorem C9_hint_bound (qs0 : List PQuestion) (st : PracticeState) (h : PReach qs0 st) :
    (∀ q, (lookupA st.hintsUsed q).getD 0 ≤ 3) ∧
    (∀ fetchOk q, st.questions[st.currentIndex]? = some q →
       (lookupA st.hintsUsed q.id).getD 0 = 3 → pGetHint st fetchOk = st) :=
  ⟨preach_hintInv qs0 st h,
    fun fetchOk q hq h3 => pGetHint_noop_at_three st fetchOk q hq h3⟩

/-- Witness for C9: a fresh one-question session satisfies the bound, and
after three hints a fourth request is a no-op. -/
theorem C9_hint_bound_witness :
    (lookupA (pInit [pq1]).hintsUsed "q1").getD 0 ≤ 3 ∧
    pGetHint (pGetHint (pGetHint (pGetHint (pInit [pq1]) true) true) true) true
      = pGetHint (pGetHint (pGetHint (pInit [pq1]) true) true) true := by
  constructor
  · exact (C9_hint_bound [pq1] (pInit [pq1]) PReach.init).1 "q1"
  · have h := C9_hint_bound [pq1]
      (pGetHint (pGetHint (pGetHint (pInit [pq1]) true) true) true)
      (PReach.step (PReach.step (PReach.step PReach.init (PStep.hintStep true))
        (PStep.hintStep true)) (PStep.hintStep true))
    exact h.2 true pq1 (by decide) (by decide)

/-- Counterexample for C3: submitting a second answer to the
already-answered question q1 changes the stored attempt (the practice
client's `Map.set` overwrites it); no `DuplicateSubmission` error exists in
this code path. -/
theorem C3_counterexample :
    lookupA (pSubmitAnswer cs3 (some ⟨false, 0⟩)).answers "q1"
      ≠ lookupA cs3.answers "q1" := by
  decide

/-- C3 (amended): the practice client never rejects a re-submission with a
`DuplicateSubmission` error — if `handleSubmitAnswer` runs for a question
that already has a stored attempt it simply overwrites that entry (last
write wins); instead, the UI prevents re-submission via the `showResult`
guard, under which answer selection is a no-op. -/
theorem C3_resubmission_overwrites (st : PracticeState) (answer : String) (q : PQuestion)
    (r : AnswerResultR) (hq : st.questions[st.currentIndex]? = some q)
    (hsel : st.selectedAnswers ≠ []) :
    (st.showResult = true → pSelectAnswer st answer = st) ∧
    lookupA (pSubmitAnswer st (some r)).answers q.id
      = some ⟨String.intercalate ", " st.selectedAnswers, r⟩ := by
  constructor
  · intro hres
    unfold pSelectAnswer
    rw [if_pos hres]
  · unfold pSubmitAnswer
    rw [if_neg (fun hlen => hsel (List.length_eq_zero.mp hlen)), hq]
    exact lookupA_setA_self _ _ _

/-- Witness for C3's amended statement at the counterexample state. -/
theorem C3_resubmission_overwrites_witness :
    lookupA (pSubmitAnswer cs3 (some ⟨false, 0⟩)).answers "q1"
      = some ⟨"B", ⟨false, 0⟩⟩ := by
  have h := C3_resubmission_overwrites cs3 "X" pq1 ⟨false, 0⟩ (by decide) (by decide)
  exact h.2

/-- C7: the spec's three-question scenario (penalty 0.5/hint; Q1 correct
with 0 hints, Q2 correct with 2 hints, Q3 incorrect with 1 hint): the
completed session reports 2 of 3 correct, accuracy (2/3)·100 computed from
the correctness booleans, and total score 1. -/
theorem C7_scenario :
    (getResults pScen12).correct = 2 ∧
    (getResults pScen12).total = 3 ∧
    (getResults pScen12).accuracy = ((2 : ℚ) / 3) * 100 ∧
    totalScore pScen12 = 1 ∧
    pScen12.sessionComplete = true := by
  refine ⟨by decide, by decide, ?_, ?_, by decide⟩
  · have hacc : (getResults pScen12).accuracy
        = (((getResults pScen12).correct : ℚ) / ((getResults pScen12).total : ℚ)) * 100 := rfl
    rw [hacc, show (getResults pScen12).correct = 2 by decide,
      show (getResults pScen12).total = 3 by decide]
    norm_num
  · have h1 : attemptScore true 0 scenPenalty = 1 := by
      simp [attemptScore, scenPenalty]
    have h2 : attemptScore true 2 scenPenalty = 0 := by
      simp [attemptScore, scenPenalty]
    have h3 : attemptScore false 1 scenPenalty = 0 := by
      simp [attemptScore, scenPenalty]
    have hsum : totalScore pScen12
        = attemptScore true 0 scenPenalty
          + (attemptScore true 2 scenPenalty + (attemptScore false 1 scenPenalty + 0)) := rfl
    rw [hsum, h1, h2, h3]
    norm_num

theorem paperOK_find (sess : MockExamSession) (n : Nat) (h : paperOK sess n = true) :
    ∃ p, sess.papers.find? (fun q => q.paper_number == n) = some p
      ∧ p.sections.length = 4 := by
  unfold paperOK at h
  cases hf : sess.papers.find? (fun q => q.paper_number == n) with
  | none => rw [hf] at h; cases h
  | some p =>
    rw [hf] at h
    exact ⟨p, rfl, by simpa using h⟩

theorem wf_find (sess : MockExamSession) (hwf : wellFormedSession sess = true)
    (n : Nat) (hn : n = 1 ∨ n = 2) :
    ∃ p, sess.papers.find? (fun q => q.paper_number == n) = some p
      ∧ p.sections.length = 4 := by
  unfold wellFormedSession at hwf
  rw [Bool.and_eq_true] at hwf
  rcases hn with rfl | rfl
  · exact paperOK_find sess 1 hwf.1
  · exact paperOK_find sess 2 hwf.2

theorem finishSection_char (outcome : Bool) (s : ExamState) (sess : MockExamSession)
    (hsess : s.session = some sess) (hwf : wellFormedSession sess = true)
    (hp : s.currentPaper = 1 ∨ s.currentPaper = 2) :
    finishSection outcome s =
      if s.currentSectionIdx + 1 < 4 then
        { s with currentSectionIdx := s.currentSectionIdx + 1,
                 phase := ExamPhase.sectionBreak }
      else if s.currentPaper = 1 then { s with phase := ExamPhase.paperBreak }
      else completeExam outcome s := by
  obtain ⟨p, hfind, hlen⟩ := wf_find sess hwf s.currentPaper hp
  unfold finishSection
  split
  · next hnone => rw [hnone] at hsess; cases hsess
  · next sess2 hsome =>
    rw [hsome] at hsess
    injection hsess with hs2
    subst hs2
    split
    · next hfnone => rw [hfind] at hfnone; cases hfnone
    · next paper hfsome =>
      rw [hfind] at hfsome
      injection hfsome with hpp
      subst hpp
      rw [hlen]

theorem handleSelectAnswerE_frame (s : ExamState) (answer : String) (o : SubmitOutcome) :
    (handleSelectAnswerE s answer o).1.phase = s.phase ∧
    (handleSelectAnswerE s answer o).1.session = s.session ∧
    (handleSelectAnswerE s answer o).1.currentPaper = s.currentPaper ∧
    (handleSelectAnswerE s answer o).1.currentSectionIdx = s.currentSectionIdx ∧
    (handleSelectAnswerE s answer o).2 = none := by
  unfold handleSelectAnswerE
  repeat' split
  all_goals exact ⟨rfl, rfl, rfl, rfl, rfl⟩

theorem finishSection_inv (outcome : Bool) (s : ExamState) (h : ExamInv s)
    (hph : s.phase = ExamPhase.sectionActive) : ExamInv (finishSection outcome s) := by
  obtain ⟨⟨sess, hsess, hwf⟩, hp12, hidx⟩ := h.1 (Or.inl hph)
  rw [finishSection_char outcome s sess hsess hwf hp12]
  by_cases hlt : s.currentSectionIdx + 1 < 4
  · rw [if_pos hlt]
    exact ⟨fun _ => ⟨⟨sess, hsess, hwf⟩, hp12, Nat.lt_succ_iff.mp hlt⟩,
      fun hpb => by cases hpb⟩
  · rw [if_neg hlt]
    by_cases hp1 : s.currentPaper = 1
    · rw [if_pos hp1]
      exact ⟨fun hor => (by rcases hor with h' | h' <;> cases h'), fun _ => ⟨sess, hsess, hwf⟩⟩
    · rw [if_neg hp1]
      unfold completeExam
      split
      · exact h
      · split
        · exact ⟨fun hor => (by rcases hor with h' | h' <;> cases h'), fun hpb => by cases hpb⟩
        · exact h

theorem startNextSection_inv (s : ExamState) (qs : List String) (h : ExamInv s)
    (hph : s.phase = ExamPhase.sectionBreak) : ExamInv (startNextSection s qs) := by
  obtain ⟨⟨sess, hsess, hwf⟩, hp12, hidx⟩ := h.1 (Or.inr hph)
  unfold startNextSection
  split
  · exact h
  · exact ⟨fun _ => ⟨⟨sess, hsess, hwf⟩, hp12, hidx⟩, fun hpb => by cases hpb⟩

theorem startPaper2_inv (s : ExamState) (qs : List String) (h : ExamInv s)
    (hph : s.phase = ExamPhase.paperBreak) : ExamInv (startPaper2 s qs) := by
  obtain ⟨sess, hsess, hwf⟩ := h.2 hph
  unfold startPaper2
  split
  · exact h
  · exact ⟨fun _ => ⟨⟨sess, hsess, hwf⟩, Or.inr rfl, Nat.zero_le _⟩, fun hpb => by cases hpb⟩

theorem examStep_inv {s : ExamState} {e : ExamEvent} {s' : ExamState}
    (h : ExamInv s) (hs : ExamStep s e s') : ExamInv s' := by
  cases hs with
  | startE sess qs hph hwf =>
    exact ⟨fun _ => ⟨⟨sess, rfl, hwf⟩, Or.inl rfl, Nat.zero_le _⟩, fun hpb => by cases hpb⟩
  | failE msg hph => exact h
  | selectE answer o hph =>
    obtain ⟨h1, h2, h3, h4, _⟩ := handleSelectAnswerE_frame s answer o
    constructor
    · intro hor
      rw [h1] at hor
      obtain ⟨⟨sess, hsess, hwf⟩, hp, hidx⟩ := h.1 hor
      refine ⟨⟨sess, ?_, hwf⟩, ?_, ?_⟩
      · rw [h2]; exact hsess
      · rw [h3]; exact hp
      · rw [h4]; exact hidx
    · intro hpb
      rw [h1] at hpb
      obtain ⟨sess, hsess, hwf⟩ := h.2 hpb
      exact ⟨sess, by rw [h2]; exact hsess, hwf⟩
  | gotoQE i hph => exact h
  | finishSE outcome hph => exact finishSection_inv outcome s h hph
  | timerUpE outcome hph => exact finishSection_inv outcome s h hph
  | startNextSE qs hph => exact startNextSection_inv s qs h hph
  | startPaperTwoE qs hph => exact startPaper2_inv s qs h hph
  | takeAnotherE hph =>
    exact ⟨fun hor => (by rcases hor with h' | h' <;> cases h'), fun hpb => by cases hpb⟩

theorem examReach_inv (s : ExamState) (h : ExamReach s) : ExamInv s := by
  induction h with
  | init => exact ⟨fun hor => (by rcases hor with h' | h' <;> cases h'), fun hpb => by cases hpb⟩
  | step _ hs ih => exact examStep_inv ih hs

/-- Helper for C4: if closing a section lands in the results phase, the
state was Paper 2 Section index 3 and the backend completion call
succeeded. -/
theorem finish_results_aux (outcome : Bool) (s : ExamState) (hinv : ExamInv s)
    (hph : s.phase = ExamPhase.sectionActive)
    (hres : (finishSection outcome s).phase = ExamPhase.results) :
    s.currentPaper = 2 ∧ s.currentSectionIdx = 3 ∧ outcome = true := by
  obtain ⟨⟨sess, hsess, hwf⟩, hp12, hidx⟩ := hinv.1 (Or.inl hph)
  rw [finishSection_char outcome s sess hsess hwf hp12] at hres
  by_cases hlt : s.currentSectionIdx + 1 < 4
  · rw [if_pos hlt] at hres
    simp at hres
  · rw [if_neg hlt] at hres
    by_cases hp1 : s.currentPaper = 1
    · rw [if_pos hp1] at hres
      simp at hres
    · rw [if_neg hp1] at hres
      unfold completeExam at hres
      rw [hsess] at hres
      cases outcome with
      | false =>
        simp at hres
        rw [hph] at hres
        cases hres
      | true => exact ⟨hp12.resolve_left hp1, by omega, rfl⟩

/-- C1: in every reachable active-section state the paper is 1 or 2, the
section index is at most 3, and closing the section has exactly the fixed
successors: a section break before section k+1 while k+1 < 4; the paper
break when Paper 1's fourth section closes; exam completion (the results
phase) when Paper 2's fourth section closes and the backend completion
call succeeds, with only an error message (no other successor) when it
fails. -/
theorem C1_section_order (s : ExamState) (hr : ExamReach s)
    (hph : s.phase = ExamPhase.sectionActive) :
    (s.currentPaper = 1 ∨ s.currentPaper = 2) ∧ s.currentSectionIdx ≤ 3 ∧
    (∀ outcome, s.currentSectionIdx < 3 →
      finishSection outcome s
        = { s with currentSectionIdx := s.currentSectionIdx + 1,
                   phase := ExamPhase.sectionBreak }) ∧
    (∀ outcome, s.currentSectionIdx = 3 → s.currentPaper = 1 →
      finishSection outcome s = { s with phase := ExamPhase.paperBreak }) ∧
    (s.currentSectionIdx = 3 → s.currentPaper = 2 →
      finishSection true s
        = { s with phase := ExamPhase.results, resultsLoaded := true } ∧
      finishSection false s = { s with errorMsg := "Failed to complete exam" }) := by
  obtain ⟨⟨sess, hsess, hwf⟩, hp12, hidx⟩ := (examReach_inv s hr).1 (Or.inl hph)
  refine ⟨hp12, hidx, ?_, ?_, ?_⟩
  · intro outcome hlt
    rw [finishSection_char outcome s sess hsess hwf hp12, if_pos (by omega)]
  · intro outcome h3 hp1
    rw [finishSection_char outcome s sess hsess hwf hp12, if_neg (by omega), if_pos hp1]
  · intro h3 hp2
    have hne1 : ¬ s.currentPaper = 1 := by omega
    constructor
    · rw [finishSection_char true s sess hsess hwf hp12, if_neg (by omega), if_neg hne1]
      unfold completeExam
      rw [hsess]
      rfl
    · rw [finishSection_char false s sess hsess hwf hp12, if_neg (by omega), if_neg hne1]
      unfold completeExam
      rw [hsess]
      rfl

/-- Witness for C1: in the first reachable active section (Paper 1 Section
index 0) closing the section enters the section break before the next
section. -/
theorem C1_section_order_witness :
    finishSection true wst1
      = { wst1 with currentSectionIdx := 1, phase := ExamPhase.sectionBreak } := by
  have h := C1_section_order wst1
    (ExamReach.step ExamReach.init (ExamStep.startE sampleSession [] rfl rfl)) rfl
  exact h.2.2.1 true (by decide)

/-- C2: the section timer reaching zero triggers exactly the transition of
an explicit finish-section request — `handleTimerExpired` delegates to the
shared `finishSection`, so from every pre-state both paths produce the same
successor state. -/
theorem C2_timer_same_transition (outcome : Bool) (s : ExamState) :
    handleTimerExpired outcome s = finishSection outcome s := rfl

/-- C4: in every reachable execution, the results phase (exam completion)
is entered only by the close of Paper 2's fourth section — via the
finish-section or timer-expiry event from an active-section state with
paper 2 and section index 3; no earlier state reaches it. -/
theorem C4_complete_only_after_final (s : ExamState) (e : ExamEvent) (s' : ExamState)
    (hr : ExamReach s) (hstep : ExamStep s e s')
    (hres : s'.phase = ExamPhase.results) :
    s.phase = ExamPhase.sectionActive ∧ s.currentPaper = 2 ∧ s.currentSectionIdx = 3 ∧
    (∃ outcome, e = ExamEvent.finishS outcome ∨ e = ExamEvent.timerUp outcome) := by
  have hinv := examReach_inv s hr
  cases hstep with
  | startE sess qs hph hwf => simp [startExamState] at hres
  | failE msg hph =>
    simp at hres
    rcases hph with h' | h' <;> rw [h'] at hres <;> cases hres
  | selectE answer o hph =>
    rw [(handleSelectAnswerE_frame s answer o).1, hph] at hres
    cases hres
  | gotoQE i hph =>
    simp at hres
    rw [hph] at hres
    cases hres
  | finishSE outcome hph =>
    obtain ⟨hp2, h3, _⟩ := finish_results_aux outcome s hinv hph hres
    exact ⟨hph, hp2, h3, outcome, Or.inl rfl⟩
  | timerUpE outcome hph =>
    obtain ⟨hp2, h3, _⟩ := finish_results_aux outcome s hinv hph hres
    exact ⟨hph, hp2, h3, outcome, Or.inr rfl⟩
  | startNextSE qs hph =>
    unfold startNextSection at hres
    split at hres
    · rw [hph] at hres; cases hres
    · simp at hres
  | startPaperTwoE qs hph =>
    unfold startPaper2 at hres
    split at hres
    · rw [hph] at hres; cases hres
    · simp at hres
  | takeAnotherE hph => simp [resetToIntro] at hres

/-- Witness for C4: the full happy-path run of the sample exam — the step
that enters the results phase is the finish of Paper 2's fourth section
(paper 2, section index 3). -/
theorem C4_complete_only_after_final_witness :
    (finishSection true wst15).phase = ExamPhase.results ∧
    wst15.currentPaper = 2 ∧ wst15.currentSectionIdx = 3 := by
  have h1 : ExamReach wst1 :=
    ExamReach.step ExamReach.init (ExamStep.startE sampleSession [] rfl rfl)
  have h2 : ExamReach wst2 := ExamReach.step h1 (ExamStep.finishSE true rfl)
  have h3 : ExamReach wst3 := ExamReach.step h2 (ExamStep.startNextSE [] rfl)
  have h4 : ExamReach wst4 := ExamReach.step h3 (ExamStep.finishSE true rfl)
  have h5 : ExamReach wst5 := ExamReach.step h4 (ExamStep.startNextSE [] rfl)
  have h6 : ExamReach wst6 := ExamReach.step h5 (ExamStep.finishSE true rfl)
  have h7 : ExamReach wst7 := ExamReach.step h6 (ExamStep.startNextSE [] rfl)
  have h8 : ExamReach wst8 := ExamReach.step h7 (ExamStep.finishSE true rfl)
  have h9 : ExamReach wst9 := ExamReach.step h8 (ExamStep.startPaperTwoE [] rfl)
  have h10 : ExamReach wst10 := ExamReach.step h9 (ExamStep.finishSE true rfl)
  have h11 : ExamReach wst11 := ExamReach.step h10 (ExamStep.startNextSE [] rfl)
  have h12 : ExamReach wst12 := ExamReach.step h11 (ExamStep.finishSE true rfl)
  have h13 : ExamReach wst13 := ExamReach.step h12 (ExamStep.startNextSE [] rfl)
  have h14 : ExamReach wst14 := ExamReach.step h13 (ExamStep.finishSE true rfl)
  have h15 : ExamReach wst15 := ExamReach.step h14 (ExamStep.startNextSE [] rfl)
  have h := C4_complete_only_after_final wst15 (ExamEvent.finishS true)
    (finishSection true wst15) h15 (ExamStep.finishSE true rfl) (by decide)
  exact ⟨by decide, h.2.1, h.2.2.1⟩

/-- Counterexample for C8: a failed mock-exam answer submission surfaces no
named error (`.catch` with an empty handler) while the local answer store
has already changed — the rejected operation neither reports a condition
nor leaves stored state unchanged. -/
theorem C8_counterexample :
    (handleSelectAnswerE cse "B" SubmitOutcome.failed).2 = none ∧
    (handleSelectAnswerE cse "B" SubmitOutcome.failed).1.answers ≠ cse.answers := by
  constructor
  · rfl
  · decide

/-- C8 (amended): the mock-exam answer submission path swallows failures:
the outcome of the backend call has no effect on the resulting state, and
no error condition is ever surfaced by this handler (while the optimistic
local update is kept either way). -/
theorem C8_swallowed_submission (s : ExamState) (answer : String) (o : SubmitOutcome) :
    handleSelectAnswerE s answer o = handleSelectAnswerE s answer SubmitOutcome.ok ∧
    (handleSelectAnswerE s answer o).2 = none :=
  ⟨rfl, (handleSelectAnswerE_frame s answer o).2.2.2.2⟩

/-- C10: while a section is active, selecting an answer stores it keyed by
the current question's id, leaves every other question's stored answer
unchanged, lets a second selection for the same question replace the first
(last selection wins), and rejects nothing (no surfaced error). -/
theorem handleSelectAnswerE_red (s : ExamState) (answer : String) (o : SubmitOutcome)
    (qid : String) (hq : s.questions[s.currentQuestionIdx]? = some qid) :
    (handleSelectAnswerE s answer o).1
      = { s with answers := setA s.answers qid answer } := by
  unfold handleSelectAnswerE
  simp only [hq]
  cases hs : s.session with
  | none => rfl
  | some sess => rfl

theorem C10_selection_replaces (s : ExamState) (a b : String) (o o2 : SubmitOutcome)
    (qid : String) (hph : s.phase = ExamPhase.sectionActive)
    (hq : s.questions[s.currentQuestionIdx]? = some qid) :
    lookupA (handleSelectAnswerE s a o).1.answers qid = some a ∧
    (∀ q2, q2 ≠ qid →
      lookupA (handleSelectAnswerE s a o).1.answers q2 = lookupA s.answers q2) ∧
    lookupA (handleSelectAnswerE (handleSelectAnswerE s a o).1 b o2).1.answers qid
      = some b ∧
    (handleSelectAnswerE s a o).2 = none := by
  have hred : (handleSelectAnswerE s a o).1 = { s with answers := setA s.answers qid a } :=
    handleSelectAnswerE_red s a o qid hq
  refine ⟨?_, ?_, ?_, (handleSelectAnswerE_frame s a o).2.2.2.2⟩
  · rw [hred]
    exact lookupA_setA_self _ _ _
  · intro q2 hne
    rw [hred]
    exact lookupA_setA_ne _ _ _ _ hne
  · have hq2 : ((handleSelectAnswerE s a o).1).questions[
        ((handleSelectAnswerE s a o).1).currentQuestionIdx]? = some qid := by
      rw [hred]
      exact hq
    have hred2 : (handleSelectAnswerE (handleSelectAnswerE s a o).1 b o2).1
        = { (handleSelectAnswerE s a o).1 with
            answers := setA (handleSelectAnswerE s a o).1.answers qid b } :=
      handleSelectAnswerE_red (handleSelectAnswerE s a o).1 b o2 qid hq2
    rw [hred2, hred]
    exact lookupA_setA_self _ _ _

/-- Witness for C10 at a concrete active-section state: the selection for
e1 is stored, re-selection replaces it, and e2's stored answer is
untouched. -/
theorem C10_selection_replaces_witness :
    lookupA (handleSelectAnswerE cse "A" SubmitOutcome.ok).1.answers "e1" = some "A" ∧
    lookupA (handleSelectAnswerE (handleSelectAnswerE cse "A" SubmitOutcome.ok).1
      "B" SubmitOutcome.ok).1.answers "e1" = some "B" ∧
    lookupA (handleSelectAnswerE cse "A" SubmitOutcome.ok).1.answers "e2" = some "C" := by
  have h := C10_selection_replaces cse "A" "B" SubmitOutcome.ok SubmitOutcome.ok "e1"
    rfl (by decide)
  refine ⟨h.1, h.2.2.1, ?_⟩
  rw [h.2.1 "e2" (by decide)]
  decide
